import Mathlib

/-!
# Verification of the CogOpsCB query-orchestration pipeline

Shallow embedding, in Lean 4, of the core components of the CogOpsCB
repository (a conversational retrieval-augmented QA engine):

* `src/cogops/retriver/vector_search.py` — the vector retriever
  (`get_unique_passages_from_all_collections`);
* `src/cogops/utils/token_manager.py` — the token accountant
  (`build_safe_prompt`, `_truncate_history`, `_truncate_passages`);
* `src/cogops/retriver/reranker.py` — the parallel reranker
  (`_score_one_passage`, `rerank`);
* `src/cogops/agent.py` — the conversation orchestrator (`process_query`).

External capabilities (tokenizer, LLM endpoints, the vector store) are
modelled as explicit parameters (oracles): each definition takes the
observable outcomes of the external calls as input, which captures every
behaviour of the Python code for every possible behaviour of its
collaborators.
-/

set_option autoImplicit false

namespace CogOps

/-! ## Data model: stored passages

A record returned by the ChromaDB passage collection, as structured by
`vector_search.py` (`{'id': ..., 'document': ..., 'metadata': ...}`).
Metadata dictionaries are modelled as association lists (Python dicts have
unique keys; `List.lookup` returns the first binding, matching `dict.get`).
-/

structure StoredPassage where
  id : String
  document : String
  metadata : List (String × String)
  deriving DecidableEq, Repr

/-! ## Vector retriever (`src/cogops/retriver/vector_search.py`)

`_query_collection_async` extracts
`[meta['passage_id'] for meta in results['metadatas'][0] if 'passage_id' in meta]`
from one shard's query result.  We embed from the level of the returned
metadata dictionaries.
-/

/-- One shard's per-rank metadata dictionaries, best rank first
(`results['metadatas'][0]` in `_query_collection_async`). -/
abbrev ShardMetas := List (List (String × String))

/-- `vector_search.py` lines 131-133: extract `passage_id` values, skipping
metadatas lacking the key. -/
def extractPassageIds (metas : ShardMetas) : List String :=
  metas.filterMap (fun m => m.lookup "passage_id")

/-- The passage collection's `get(ids=...)`: returns the stored records whose
id is among the requested ids.  ChromaDB returns them in the store's own
order (the spec itself notes "the store's natural order is not guaranteed"),
which we model as the order of the `store` list. -/
def storeGet (store : List StoredPassage) (ids : List String) : List StoredPassage :=
  store.filter (fun p => ids.contains p.id)

/-- `vector_search.py` lines 138-189, `get_unique_passages_from_all_collections`:

1. query every shard (each shard yields its metadata lists; a failed shard
   yields `[]`, which is already a possible value of its entry here);
2. form the set of all distinct returned `passage_id`s
   (`unique_passage_ids : Set[str]`; we model the set by `dedup` of the
   concatenation — only set-level facts about it are ever proved, since
   Python's set iteration order is unspecified);
3. if the set is empty return `[]`, else fetch those ids from the passage
   collection and return the records as structured.

Note the source performs no Reciprocal Rank Fusion here: ranks are
discarded by the set union, there is no `max_results` cap and no
reordering of the store's output. -/
def get_unique_passages_from_all_collections
    (shardMetas : List ShardMetas) (store : List StoredPassage) : List StoredPassage :=
  let results := shardMetas.map extractPassageIds
  let uniqueIds := results.flatten.dedup
  if uniqueIds.isEmpty then [] else storeGet store uniqueIds

/-! ### The claim's Reciprocal Rank Fusion, stated from the claim's words

For the refinement comparison in claim C1 we write down, separately from the
source embedding above, the RRF selection the claim describes: fused score
`Σ 1/(k_rrf + rank_s)` per distinct id, top `max_results` by fused score,
ties broken by lower passage id, output ordered by that fused ranking. -/

/-- RRF fused score of one id over the shard ranked lists (rank starts at 1). -/
def rrfScore (k : ℚ) (shards : List (List String)) (pid : String) : ℚ :=
  (shards.filterMap
    (fun s => (s.indexOf? pid).map (fun i => (1 : ℚ) / (k + (i + 1 : ℕ))))).sum

/-- The claim's ordering: strictly greater fused score first, ties broken by
lower passage id. -/
def fusedBefore (k : ℚ) (shards : List (List String)) (a b : String) : Prop :=
  rrfScore k shards b < rrfScore k shards a ∨
    (rrfScore k shards a = rrfScore k shards b ∧ a < b)

/-- Claim C1 as stated, for a given RRF constant `k` and cap `m`: there is a
ranking `sortedIds` of the distinct shard-returned ids, ordered by fused
score with the stated tiebreak, such that the function's output is exactly
the materialization of its first `m` entries, in that order. -/
def claimC1Statement (k : ℚ) (m : ℕ)
    (shardMetas : List ShardMetas) (store : List StoredPassage) : Prop :=
  let shards := shardMetas.map extractPassageIds
  let out := get_unique_passages_from_all_collections shardMetas store
  ∃ sortedIds : List String,
    sortedIds.Perm shards.flatten.dedup ∧
    sortedIds.Pairwise (fusedBefore k shards) ∧
    out.map (·.id) = sortedIds.take m

/-! ## Token accountant (`src/cogops/utils/token_manager.py`)

The tokenizer is an external capability; we carry its `encode`/`decode`
pair as fields.  The configured history fraction (`history_budget`, default
`0.5`) is carried as an exact fraction `historyBudgetNum / historyBudgetDen`;
`int(remaining_tokens * self.history_budget)` becomes Nat multiplication
followed by floor division, which agrees with Python for the non-negative
values that reach it. -/

structure TokenManager where
  encode : String → List ℕ
  decode : List ℕ → String
  reservation_tokens : ℤ
  historyBudgetNum : ℕ
  historyBudgetDen : ℕ

/-- `count_tokens`: `0` for the empty string, else the length of the
encoding. -/
def TokenManager.count_tokens (tm : TokenManager) (s : String) : ℕ :=
  if s = "" then 0 else (tm.encode s).length

/-- One history turn as formatted by `_truncate_history` (and by
`_format_history_for_planner` in `agent.py`): `f"User: {u}\nAI: {a}"`. -/
def formatTurn (t : String × String) : String :=
  "User: " ++ t.1 ++ "\nAI: " ++ t.2

/-- The joined history string: turns joined by `"\n---\n"`. -/
def formatHistory (h : List (String × String)) : String :=
  String.intercalate "\n---\n" (h.map formatTurn)

/-- The `while` loop of `_truncate_history`: keep popping the oldest turn
until the formatted remainder fits the budget; `some kept` is the first
(longest) fitting suffix, `none` means every turn was popped. -/
def keptHistory (tm : TokenManager) (maxTokens : ℤ) :
    List (String × String) → Option (List (String × String))
  | [] => none
  | t :: rest =>
    if (tm.count_tokens (formatHistory (t :: rest)) : ℤ) ≤ maxTokens then some (t :: rest)
    else keptHistory tm maxTokens rest

/-- `_truncate_history` (lines 33-50): empty history yields the
"No conversation history yet." placeholder, an over-long single turn yields
the "History is too long to be included." placeholder. -/
def truncate_history (tm : TokenManager) (history : List (String × String))
    (maxTokens : ℤ) : String :=
  if history.isEmpty then "No conversation history yet."
  else
    match keptHistory tm maxTokens history with
    | some kept => formatHistory kept
    | none => "History is too long to be included."

/-- One passage as formatted by `_truncate_passages`:
`f"Passage ID: {p.get('metadata', {}).get('passage_id', p.get('id'))}\nContent: {p['document']}"`. -/
def formatPassage (p : StoredPassage) : String :=
  "Passage ID: " ++ (p.metadata.lookup "passage_id").getD p.id ++ "\nContent: " ++ p.document

/-- Passages joined by `"\n\n"`. -/
def formatPassages (ps : List StoredPassage) : String :=
  String.intercalate "\n\n" (ps.map formatPassage)

/-- The `for i in range(len(passages), 0, -1)` loop of `_truncate_passages`:
try prefixes from longest to the single-element one, return the first that
fits, else `[]`.  The fuel argument equals the current prefix length, so the
empty prefix is never tried, exactly as in the source. -/
def keptPassagesAux (fits : List StoredPassage → Bool) :
    ℕ → List StoredPassage → List StoredPassage
  | 0, _ => []
  | n + 1, ps => if fits ps then ps else keptPassagesAux fits n ps.dropLast

/-- The passage prefix kept by `_truncate_passages` under budget
`maxTokens`. -/
def keptPassages (tm : TokenManager) (maxTokens : ℤ)
    (ps : List StoredPassage) : List StoredPassage :=
  keptPassagesAux (fun l => decide ((tm.count_tokens (formatPassages l) : ℤ) ≤ maxTokens))
    ps.length ps

/-- `_truncate_passages` (lines 52-69): the formatted kept prefix; the
no-fit and empty-input cases both yield `""` (= `formatPassages []`). -/
def truncate_passages (tm : TokenManager) (ps : List StoredPassage)
    (maxTokens : ℤ) : String :=
  formatPassages (keptPassages tm maxTokens ps)

/-- The keyword arguments of one `build_safe_prompt` call: every slot other
than `history` and `passages_context` is a fixed component (already
stringified), the two truncatable slots are optional exactly as in the
source (`if 'history' in kwargs`, `if 'passages_context' in kwargs`). -/
structure PromptInputs where
  fixedSlots : List (String × String)
  history : Option (List (String × String))
  passages : Option (List StoredPassage)

/-- Token cost of the fixed components (first loop of
`build_safe_prompt`). -/
def fixedTokens (tm : TokenManager) (pi : PromptInputs) : ℕ :=
  (pi.fixedSlots.map (fun kv => tm.count_tokens kv.2)).sum

/-- `available_content_tokens = max_tokens - self.reservation_tokens`. -/
def availableTokens (tm : TokenManager) (maxTokens : ℤ) : ℤ :=
  maxTokens - tm.reservation_tokens

/-- `remaining_tokens`, clamped at zero as in the source
(`if remaining_tokens < 0: remaining_tokens = 0`). -/
def remainingAfterFixed (tm : TokenManager) (maxTokens : ℤ) (pi : PromptInputs) : ℕ :=
  (availableTokens tm maxTokens - (fixedTokens tm pi : ℤ)).toNat

/-- `history_budget_tokens = int(remaining_tokens * self.history_budget)`. -/
def historyBudgetTokens (tm : TokenManager) (remaining : ℕ) : ℕ :=
  remaining * tm.historyBudgetNum / tm.historyBudgetDen

/-- The `history_str` component of the prompt (empty when the slot is
absent, in which case it is also not formatted into the template). -/
def historyStr (tm : TokenManager) (maxTokens : ℤ) (pi : PromptInputs) : String :=
  match pi.history with
  | none => ""
  | some h =>
    truncate_history tm h (historyBudgetTokens tm (remainingAfterFixed tm maxTokens pi))

/-- `passage_tokens_budget = available_content_tokens - tokens_used` after
the history component has been charged; unlike `remaining_tokens` this is
not clamped and may be negative. -/
def passageBudget (tm : TokenManager) (maxTokens : ℤ) (pi : PromptInputs) : ℤ :=
  availableTokens tm maxTokens - (fixedTokens tm pi : ℤ) -
    (match pi.history with
     | none => 0
     | some _ => (tm.count_tokens (historyStr tm maxTokens pi) : ℤ))

/-- The `passages_context` component of the prompt. -/
def passageStr (tm : TokenManager) (maxTokens : ℤ) (pi : PromptInputs) : String :=
  match pi.passages with
  | none => ""
  | some ps => truncate_passages tm ps (passageBudget tm maxTokens pi)

/-- The history turns that survive truncation (empty when the slot is
absent or when a placeholder replaced the history). -/
def includedTurns (tm : TokenManager) (maxTokens : ℤ) (pi : PromptInputs) :
    List (String × String) :=
  match pi.history with
  | none => []
  | some h =>
    (keptHistory tm (historyBudgetTokens tm (remainingAfterFixed tm maxTokens pi)) h).getD []

/-- The passages that survive truncation. -/
def includedPassages (tm : TokenManager) (maxTokens : ℤ) (pi : PromptInputs) :
    List StoredPassage :=
  match pi.passages with
  | none => []
  | some ps => keptPassages tm (passageBudget tm maxTokens pi) ps

/-- Python's `l[:m]` for an integer `m` (negative `m` slices from the
end), used by the final hard truncation. -/
def pySlice {α : Type} (m : ℤ) (l : List α) : List α :=
  if 0 ≤ m then l.take m.toNat else l.take (l.length - (-m).toNat)

/-- The final safety check of `build_safe_prompt`: re-encode, slice to the
ceiling and decode when the assembled prompt still exceeds it. -/
def hardTruncate (tm : TokenManager) (maxTokens : ℤ) (s : String) : String :=
  if (tm.count_tokens s : ℤ) ≤ maxTokens then s
  else tm.decode (pySlice maxTokens (tm.encode s))

/-- `build_safe_prompt` (lines 71-133).  `assemble` stands for
`template.format(**final_components)` with the fixed components already
bound, applied to the two truncatable components. -/
def build_safe_prompt (tm : TokenManager) (assemble : String → String → String)
    (maxTokens : ℤ) (pi : PromptInputs) : String :=
  hardTruncate tm maxTokens
    (assemble (historyStr tm maxTokens pi) (passageStr tm maxTokens pi))

/-- Claim C9 as stated: for every tokenizer, slot assignment and pair of
ceilings `c1 ≤ c2`, the turns included at the lower ceiling survive at the
higher one (as a suffix of the history they are drawn from) and likewise
the included passages (a prefix of the relevance-ordered candidate list). -/
def claimC9Statement : Prop :=
  ∀ (tm : TokenManager) (pi : PromptInputs) (c1 c2 : ℤ), c1 ≤ c2 →
    includedTurns tm c1 pi <:+ includedTurns tm c2 pi ∧
    includedPassages tm c1 pi <+: includedPassages tm c2 pi

/-! ## LLM error taxonomy

The error kinds of the spec's LLM capability (§4.2, §7): transport errors
(`APIConnectionError` / `APITimeoutError` / `RequestException`), upstream
HTTP errors, empty responses, schema violations, and the dedicated context
overflow (`ContextLengthExceededError` in `reranker.py` line 11). -/

inductive LLMError where
  | transport
  | upstream
  | emptyResponse
  | schemaViolation
  | contextOverflow
  deriving DecidableEq, Repr

/-- A relevance label, `Literal[1, 2, 3]` in `reranker.py`
(`_SinglePassageScore.score`). -/
inductive Score where
  | one
  | two
  | three
  deriving DecidableEq, Repr

/-- The integer value of a relevance label. -/
def Score.toNat : Score → ℕ
  | .one => 1
  | .two => 2
  | .three => 3

/-- The judge's structured answer (`_SinglePassageScore`). -/
structure SinglePassageScore where
  score : Score
  reasoning : String
  deriving DecidableEq, Repr

/-- `RerankedPassage` from `reranker.py`. -/
structure RerankedPassage where
  passage_id : String
  score : Score
  reasoning : String
  document : String
  metadata : List (String × String)
  deriving DecidableEq, Repr

/-! ## LLM capability (claim C8)

The `AsyncLLMService` version under `src/cogops/models/gemma3_llm_async.py`
is a stale three-argument class without `max_context_tokens` and without
`ContextLengthExceededError`, although both are required by its in-repo
callers (`reranker.py` line 11 imports the error from it, `agent.py`
line 110 passes a fourth constructor argument, `reranker.py` line 77 reads
`max_context_tokens`).  The version those callers were written against is
therefore code of this repository missing from the snapshot, and we model
it from the spec. -/

/-- Modelled from the spec: the missing `AsyncLLMService` carrying a
declared `max_context_tokens` (spec §4.2: "Each LLM endpoint carries a
declared `max_context_tokens`").  `promptTokens` is the model-side token
measure of a prompt and `upstreamResult` the remote model's behaviour on
prompts that fit; the judge schema is fixed to the reranker's
`_SinglePassageScore`. -/
structure AsyncLLMService where
  max_context_tokens : ℕ
  promptTokens : String → ℕ
  upstreamResult : String → Except LLMError SinglePassageScore

/-- Modelled from the spec (§4.2): `invoke_structured` fails with the
dedicated `context_overflow` error — distinguishable from the generic
`upstream_error` — whenever the prompt exceeds the model's context, and
otherwise behaves as the upstream does. -/
def invoke_structured (svc : AsyncLLMService) (prompt : String) :
    Except LLMError SinglePassageScore :=
  if svc.max_context_tokens < svc.promptTokens prompt then .error .contextOverflow
  else svc.upstreamResult prompt

/-! ## Parallel reranker (`src/cogops/retriver/reranker.py`)

The judge call (prompt construction via `build_safe_prompt`, which never
raises, followed by `invoke_structured` under the semaphore) is abstracted
as a per-passage outcome `judge : StoredPassage → Except LLMError _`;
`asyncio.gather` preserves input order, so the batch is a `filterMap`. -/

/-- `str(passage_metadata.get(self.passage_id_key, passage['id']))`. -/
def correctPassageId (key : String) (p : StoredPassage) : String :=
  (p.metadata.lookup key).getD p.id

/-- `_score_one_passage` (lines 65-113): success produces a scored record,
`ContextLengthExceededError` degrades to `score=3` with the truncation
reasoning, any other exception yields `None`. -/
def score_one_passage (key : String)
    (judge : StoredPassage → Except LLMError SinglePassageScore)
    (p : StoredPassage) : Option RerankedPassage :=
  match judge p with
  | .ok r =>
      some { passage_id := correctPassageId key p, score := r.score,
             reasoning := r.reasoning, document := p.document, metadata := p.metadata }
  | .error .contextOverflow =>
      some { passage_id := correctPassageId key p, score := .three,
             reasoning := "The passage content was too long to fit into the model's context window for evaluation.",
             document := p.document, metadata := p.metadata }
  | .error _ => none

/-- `rerank` (lines 115-140): score every passage, keep the non-`None`
results in input order. -/
def rerank (key : String)
    (judge : StoredPassage → Except LLMError SinglePassageScore)
    (passages : List StoredPassage) : List RerankedPassage :=
  passages.filterMap (score_one_passage key judge)

/-! ## Conversation orchestrator (`src/cogops/agent.py`)

One turn of `ChatAgent.process_query` is embedded as a pure function from
the turn's inputs — the configuration, the observable outcomes of all
external calls (the oracle), the user query and the pre-turn history pair —
to the emitted event list and the post-turn history pair.

Python async-generator semantics: chunks yielded before an exception have
already been delivered to the consumer, and the two `except` arms then
yield one final `error` event; so an errored turn's event list is the
successful part followed by the error event. -/

/-- `RetrievalPlan` from `cogops/prompts/retrive.py`. -/
structure RetrievalPlan where
  query_type : String
  query : Option String
  clarification : Option String
  category : Option String
  deriving DecidableEq, Repr

/-- The two exception classes `process_query` distinguishes:
`(APIConnectionError, APITimeoutError, RequestException)` versus every
other exception. -/
inductive PyErr where
  | network
  | other
  deriving DecidableEq, Repr

/-- Events streamed to the caller (`{"type": ..., "content": ...}`). -/
inductive Event where
  | answer_chunk (content : String)
  | final_data (sources : List String)
  | error (content : String)
  deriving DecidableEq, Repr

/-- The orchestrator's two history logs: `self.history` (summarized) and
`self.raw_history` (verbatim). -/
structure AgentState where
  history : List (String × String)
  raw_history : List (String × String)
  deriving DecidableEq, Repr

/-- The configuration values `process_query` reads. -/
structure AgentConfig where
  history_window : ℕ
  relevance_score_threshold : ℕ
  no_passages_found : String
  error_fallback : String
  deriving Repr

/-- The observable outcome of one streamed LLM call: the chunks delivered,
then an optional exception where the next chunk would have been. -/
structure StreamOutcome where
  chunks : List String
  failure : Option PyErr
  deriving DecidableEq, Repr

/-- The outcomes of every external call one turn can make.  The reranker
outcome is a function of the history list the agent passes to it
(`agent.py` line 182), so that which log is passed is observable. -/
structure TurnOracle where
  plan : Except PyErr RetrievalPlan
  responderStream : StreamOutcome
  retrieve : Except PyErr (List StoredPassage)
  rerankResult : List (String × String) → Except PyErr (List RerankedPassage)
  pivotStream : StreamOutcome
  answerStream : StreamOutcome
  summarize : Except PyErr String

/-- `agent.py` lines 145-151. -/
def nonRetrievalTypes : List String :=
  ["OUT_OF_DOMAIN_GOVT_SERVICE_INQUIRY", "GENERAL_KNOWLEDGE", "CHITCHAT",
   "ABUSIVE_SLANG", "IDENTITY_INQUIRY", "MALICIOUS", "UNHANDLED"]

/-- The message of the network `except` arm (`agent.py` line 246). -/
def networkErrorMessage : String := "Network error : services unavailable due to load"

/-- The single `error` event each `except` arm yields. -/
def errorEvent (cfg : AgentConfig) : PyErr → Event
  | .network => .error networkErrorMessage
  | .other => .error cfg.error_fallback

/-- Python truthiness of `Optional[str]` (`plan.clarification` in
`if plan.query_type == "AMBIGUOUS" and plan.clarification:`). -/
def truthyOpt : Option String → Bool
  | none => false
  | some s => s != ""

/-- Python `str.strip()`: drop whitespace from both ends. -/
def pyStrip (s : String) : String :=
  String.mk (((s.data.dropWhile Char.isWhitespace).reverse.dropWhile Char.isWhitespace).reverse)

/-- One `answer_chunk` event per stream chunk. -/
def chunkEvents (chunks : List String) : List Event :=
  chunks.map Event.answer_chunk

/-- The clarification branch streams character by character
(`for char in plan.clarification`). -/
def charChunkEvents (s : String) : List Event :=
  s.data.map (fun c => Event.answer_chunk (String.mk [c]))

/-- `sorted(list({...}))` on strings: deduplicate, then sort
lexicographically (Python's `sorted` output does not depend on the set's
iteration order). -/
def pySortedSet (l : List String) : List String :=
  List.insertionSort (· ≤ ·) l.dedup

/-- The deduplication source for the url partition (`agent.py` line 223):
`{p.metadata.get("url") for p in relevant_passages if p.metadata and p.metadata.get("url")}`
— an absent key and a falsy (empty) url are both skipped. -/
def keptUrls (relevant : List RerankedPassage) : List String :=
  relevant.filterMap (fun p =>
    match p.metadata.lookup "url" with
    | some u => if u = "" then none else some u
    | none => none)

/-- `final_sources = sorted(list(unique_urls)) + sorted(list(unique_passage_ids))`. -/
def finalSources (relevant : List RerankedPassage) : List String :=
  pySortedSet (keptUrls relevant) ++ pySortedSet (relevant.map (·.passage_id))

/-- The trim at `agent.py` lines 238-241: one `pop(0)` when the length
exceeds the window. -/
def trimLog (window : ℕ) (l : List (String × String)) : List (String × String) :=
  if window < l.length then l.tail else l

/-- Both logs trimmed (each has its own `if`). -/
def applyTrim (window : ℕ) (s : AgentState) : AgentState :=
  { history := trimLog window s.history, raw_history := trimLog window s.raw_history }

/-- The same pair appended to both logs (clarification, non-retrieval and
pivot branches). -/
def appendBoth (s : AgentState) (q reply : String) : AgentState :=
  { history := s.history ++ [(q, reply)], raw_history := s.raw_history ++ [(q, reply)] }

/-- `relevant_passages = [p for p in reranked if p.score <= self.relevance_score_threshold]`. -/
def relevantOf (cfg : AgentConfig) (reranked : List RerankedPassage) : List RerankedPassage :=
  reranked.filter (fun p => decide (p.score.toNat ≤ cfg.relevance_score_threshold))

/-- The guard of the clarification branch:
`if plan.query_type == "AMBIGUOUS" and plan.clarification:`. -/
def ambiguousCond (p : RetrievalPlan) : Prop :=
  p.query_type = "AMBIGUOUS" ∧ truthyOpt p.clarification

instance (p : RetrievalPlan) : Decidable (ambiguousCond p) :=
  inferInstanceAs (Decidable (_ ∧ _))

/-- `process_query` (`agent.py` lines 121-253), parameterized by which log
is handed to the reranker at line 182 (the source passes `self.history`;
claim C7's reading passes `self.raw_history`).  Branches:

* plan failure → one `error` event, state untouched;
* `AMBIGUOUS` with a truthy clarification → append to both logs, stream
  the clarification character-wise, `return` **before** the trim;
* a non-retrieval type → stream the responder, append to both logs, fall
  through to the trim;
* `IN_DOMAIN_GOVT_SERVICE_INQUIRY` → retrieve; empty → canned chunk and
  `return`; rerank; no relevant passage → pivot stream, append to both
  logs, `return` **before** the trim; else answer stream, `final_data`,
  append the stripped answer to the verbatim log, summarize, append the
  stripped summary to the summarized log, fall through to the trim;
* any other plan shape (e.g. `AMBIGUOUS` with empty clarification) → no
  event, fall through to the trim;
* an exception at any point → the events so far, one `error` event, and
  whatever state mutations already happened. -/
def processQueryWith (rerankHist : AgentState → List (String × String))
    (cfg : AgentConfig) (o : TurnOracle) (user_query : String) (s : AgentState) :
    List Event × AgentState :=
  match o.plan with
  | .error e => ([errorEvent cfg e], s)
  | .ok plan =>
    if ambiguousCond plan then
      let clar := plan.clarification.getD ""
      (charChunkEvents clar, appendBoth s user_query clar)
    else if plan.query_type ∈ nonRetrievalTypes then
      match o.responderStream with
      | ⟨chunks, some e⟩ => (chunkEvents chunks ++ [errorEvent cfg e], s)
      | ⟨chunks, none⟩ =>
          (chunkEvents chunks,
           applyTrim cfg.history_window (appendBoth s user_query (String.join chunks)))
    else if plan.query_type = "IN_DOMAIN_GOVT_SERVICE_INQUIRY" then
      match o.retrieve with
      | .error e => ([errorEvent cfg e], s)
      | .ok retrieved =>
        if retrieved.isEmpty then ([.answer_chunk cfg.no_passages_found], s)
        else
          match o.rerankResult (rerankHist s) with
          | .error e => ([errorEvent cfg e], s)
          | .ok reranked =>
            if (relevantOf cfg reranked).isEmpty then
              match o.pivotStream with
              | ⟨chunks, some e⟩ => (chunkEvents chunks ++ [errorEvent cfg e], s)
              | ⟨chunks, none⟩ =>
                  (chunkEvents chunks, appendBoth s user_query (String.join chunks))
            else
              match o.answerStream with
              | ⟨chunks, some e⟩ => (chunkEvents chunks ++ [errorEvent cfg e], s)
              | ⟨chunks, none⟩ =>
                let final_answer := pyStrip (String.join chunks)
                let sources := finalSources (relevantOf cfg reranked)
                let s1 : AgentState :=
                  { s with raw_history := s.raw_history ++ [(user_query, final_answer)] }
                match o.summarize with
                | .error e =>
                    (chunkEvents chunks ++ [.final_data sources, errorEvent cfg e], s1)
                | .ok summary =>
                    (chunkEvents chunks ++ [.final_data sources],
                     applyTrim cfg.history_window
                       { s1 with history := s1.history ++ [(user_query, pyStrip summary)] })
    else
      ([], applyTrim cfg.history_window s)

/-- The source's `process_query`: the reranker receives `self.history`,
the summarized log (`agent.py` line 182). -/
def processQuery (cfg : AgentConfig) (o : TurnOracle) (user_query : String)
    (s : AgentState) : List Event × AgentState :=
  processQueryWith (fun st => st.history) cfg o user_query s

/-- Claim C7's reading of the turn, from the spec's words ("Rerank via C4
with the verbatim history"): identical except the reranker receives the
verbatim log. -/
def processQueryVerbatimRerank (cfg : AgentConfig) (o : TurnOracle) (user_query : String)
    (s : AgentState) : List Event × AgentState :=
  processQueryWith (fun st => st.raw_history) cfg o user_query s

/-- Whether an event is an `error` event. -/
def Event.isError : Event → Bool
  | .error _ => true
  | _ => false

/-- A turn errored iff its event list contains an `error` event (`error`
is terminal: each `except` arm yields it and returns). -/
def turnErrored (events : List Event) : Bool :=
  events.any Event.isError

/-- The number of `final_data` events in a turn. -/
def countFinalData (events : List Event) : ℕ :=
  (events.filter (fun e => match e with | .final_data _ => true | _ => false)).length

/-- The content of an `answer_chunk` event, if any. -/
def chunkContent : Event → Option String
  | .answer_chunk c => some c
  | _ => none

/-- Concatenation of all `answer_chunk` contents of a turn, in order. -/
def answerConcat (events : List Event) : String :=
  String.join (events.filterMap chunkContent)

/-! ### Branch inventory

One exhaustive case analysis of `process_query`, shared by the theorems
below: every turn falls into exactly one of the thirteen control-flow
outcomes, each recorded with its event list and post-state. -/

theorem processQuery_branches (cfg : AgentConfig) (o : TurnOracle) (q : String)
    (s : AgentState) :
    -- planner failure
    (∃ e, o.plan = .error e ∧ processQuery cfg o q s = ([errorEvent cfg e], s)) ∨
    -- clarification branch (returns before the trim)
    (∃ p, o.plan = .ok p ∧ ambiguousCond p ∧
      processQuery cfg o q s =
        (charChunkEvents (p.clarification.getD ""), appendBoth s q (p.clarification.getD ""))) ∨
    -- non-retrieval branch, stream failure
    (∃ p cs e, o.plan = .ok p ∧ p.query_type ∈ nonRetrievalTypes ∧
      o.responderStream = ⟨cs, some e⟩ ∧
      processQuery cfg o q s = (chunkEvents cs ++ [errorEvent cfg e], s)) ∨
    -- non-retrieval branch, success (reaches the trim)
    (∃ p cs, o.plan = .ok p ∧ p.query_type ∈ nonRetrievalTypes ∧
      o.responderStream = ⟨cs, none⟩ ∧
      processQuery cfg o q s =
        (chunkEvents cs,
         applyTrim cfg.history_window (appendBoth s q (String.join cs)))) ∨
    -- in-domain, retrieval failure
    (∃ p e, o.plan = .ok p ∧ p.query_type = "IN_DOMAIN_GOVT_SERVICE_INQUIRY" ∧
      o.retrieve = .error e ∧
      processQuery cfg o q s = ([errorEvent cfg e], s)) ∨
    -- in-domain, no passage retrieved (returns before the trim)
    (∃ p, o.plan = .ok p ∧ p.query_type = "IN_DOMAIN_GOVT_SERVICE_INQUIRY" ∧
      o.retrieve = .ok [] ∧
      processQuery cfg o q s = ([.answer_chunk cfg.no_passages_found], s)) ∨
    -- in-domain, reranker failure
    (∃ p retrieved e, o.plan = .ok p ∧ p.query_type = "IN_DOMAIN_GOVT_SERVICE_INQUIRY" ∧
      o.retrieve = .ok retrieved ∧ retrieved ≠ [] ∧
      o.rerankResult s.history = .error e ∧
      processQuery cfg o q s = ([errorEvent cfg e], s)) ∨
    -- pivot branch, stream failure
    (∃ p retrieved reranked cs e,
      o.plan = .ok p ∧ p.query_type = "IN_DOMAIN_GOVT_SERVICE_INQUIRY" ∧
      o.retrieve = .ok retrieved ∧ retrieved ≠ [] ∧
      o.rerankResult s.history = .ok reranked ∧ relevantOf cfg reranked = [] ∧
      o.pivotStream = ⟨cs, some e⟩ ∧
      processQuery cfg o q s = (chunkEvents cs ++ [errorEvent cfg e], s)) ∨
    -- pivot branch, success (returns before the trim)
    (∃ p retrieved reranked cs,
      o.plan = .ok p ∧ p.query_type = "IN_DOMAIN_GOVT_SERVICE_INQUIRY" ∧
      o.retrieve = .ok retrieved ∧ retrieved ≠ [] ∧
      o.rerankResult s.history = .ok reranked ∧ relevantOf cfg reranked = [] ∧
      o.pivotStream = ⟨cs, none⟩ ∧
      processQuery cfg o q s = (chunkEvents cs, appendBoth s q (String.join cs))) ∨
    -- synthesis branch, answer stream failure
    (∃ p retrieved reranked cs e,
      o.plan = .ok p ∧ p.query_type = "IN_DOMAIN_GOVT_SERVICE_INQUIRY" ∧
      o.retrieve = .ok retrieved ∧ retrieved ≠ [] ∧
      o.rerankResult s.history = .ok reranked ∧ relevantOf cfg reranked ≠ [] ∧
      o.answerStream = ⟨cs, some e⟩ ∧
      processQuery cfg o q s = (chunkEvents cs ++ [errorEvent cfg e], s)) ∨
    -- synthesis branch, summarizer failure: the verbatim log is already appended
    (∃ p retrieved reranked cs e,
      o.plan = .ok p ∧ p.query_type = "IN_DOMAIN_GOVT_SERVICE_INQUIRY" ∧
      o.retrieve = .ok retrieved ∧ retrieved ≠ [] ∧
      o.rerankResult s.history = .ok reranked ∧ relevantOf cfg reranked ≠ [] ∧
      o.answerStream = ⟨cs, none⟩ ∧ o.summarize = .error e ∧
      processQuery cfg o q s =
        (chunkEvents cs ++ [.final_data (finalSources (relevantOf cfg reranked)), errorEvent cfg e],
         { s with raw_history := s.raw_history ++ [(q, pyStrip (String.join cs))] })) ∨
    -- synthesis branch, success (reaches the trim)
    (∃ p retrieved reranked cs summary,
      o.plan = .ok p ∧ p.query_type = "IN_DOMAIN_GOVT_SERVICE_INQUIRY" ∧
      o.retrieve = .ok retrieved ∧ retrieved ≠ [] ∧
      o.rerankResult s.history = .ok reranked ∧ relevantOf cfg reranked ≠ [] ∧
      o.answerStream = ⟨cs, none⟩ ∧ o.summarize = .ok summary ∧
      processQuery cfg o q s =
        (chunkEvents cs ++ [.final_data (finalSources (relevantOf cfg reranked))],
         applyTrim cfg.history_window
           ⟨s.history ++ [(q, pyStrip summary)],
            s.raw_history ++ [(q, pyStrip (String.join cs))]⟩)) ∨
    -- no branch matched (reaches the trim with no event)
    (∃ p, o.plan = .ok p ∧ ¬ ambiguousCond p ∧ p.query_type ∉ nonRetrievalTypes ∧
      p.query_type ≠ "IN_DOMAIN_GOVT_SERVICE_INQUIRY" ∧
      processQuery cfg o q s = ([], applyTrim cfg.history_window s)) := by
  have hnrLit : "IN_DOMAIN_GOVT_SERVICE_INQUIRY" ∉ nonRetrievalTypes := by decide
  rcases hplan : o.plan with e | p
  · exact Or.inl ⟨e, rfl, by simp [processQuery, processQueryWith, hplan]⟩
  by_cases hamb : ambiguousCond p
  · exact Or.inr (Or.inl ⟨p, rfl, hamb, by simp [processQuery, processQueryWith, hplan, hamb]⟩)
  by_cases hnr : p.query_type ∈ nonRetrievalTypes
  · rcases hrs : o.responderStream with ⟨cs, f⟩
    rcases f with _ | e
    · refine Or.inr (Or.inr (Or.inr (Or.inl ⟨p, cs, rfl, hnr, rfl, ?_⟩)))
      simp [processQuery, processQueryWith, hplan, hamb, hnr, hrs]
    · refine Or.inr (Or.inr (Or.inl ⟨p, cs, e, rfl, hnr, rfl, ?_⟩))
      simp [processQuery, processQueryWith, hplan, hamb, hnr, hrs]
  by_cases hid : p.query_type = "IN_DOMAIN_GOVT_SERVICE_INQUIRY"
  · rcases hret : o.retrieve with e | retrieved
    · refine Or.inr (Or.inr (Or.inr (Or.inr (Or.inl ⟨p, e, rfl, hid, rfl, ?_⟩))))
      simp [processQuery, processQueryWith, hplan, hamb, hid, hnrLit, hret]
    by_cases hretnil : retrieved = []
    · subst hretnil
      refine Or.inr (Or.inr (Or.inr (Or.inr (Or.inr (Or.inl ⟨p, rfl, hid, rfl, ?_⟩)))))
      simp [processQuery, processQueryWith, hplan, hamb, hid, hnrLit, hret]
    have hie : retrieved.isEmpty = false := by
      simpa using hretnil
    rcases hrr : o.rerankResult s.history with e | reranked
    · refine Or.inr (Or.inr (Or.inr (Or.inr (Or.inr (Or.inr (Or.inl
        ⟨p, retrieved, e, rfl, hid, rfl, hretnil, rfl, ?_⟩))))))
      simp [processQuery, processQueryWith, hplan, hamb, hid, hnrLit, hret, hie, hrr]
    by_cases hrel : relevantOf cfg reranked = []
    · rcases hps : o.pivotStream with ⟨cs, f⟩
      rcases f with _ | e
      · refine Or.inr (Or.inr (Or.inr (Or.inr (Or.inr (Or.inr (Or.inr (Or.inr (Or.inl
          ⟨p, retrieved, reranked, cs, rfl, hid, rfl, hretnil, rfl, hrel, rfl, ?_⟩))))))))
        simp [processQuery, processQueryWith, hplan, hamb, hid, hnrLit, hret, hie, hrr,
          hrel, hps]
      · refine Or.inr (Or.inr (Or.inr (Or.inr (Or.inr (Or.inr (Or.inr (Or.inl
          ⟨p, retrieved, reranked, cs, e, rfl, hid, rfl, hretnil, rfl, hrel, rfl, ?_⟩)))))))
        simp [processQuery, processQueryWith, hplan, hamb, hid, hnrLit, hret, hie, hrr,
          hrel, hps]
    · have hierel : (relevantOf cfg reranked).isEmpty = false := by
        simpa using hrel
      rcases has : o.answerStream with ⟨cs, f⟩
      rcases f with _ | e
      · rcases hsum : o.summarize with e | summary
        · refine Or.inr (Or.inr (Or.inr (Or.inr (Or.inr (Or.inr (Or.inr (Or.inr (Or.inr
            (Or.inr (Or.inl ⟨p, retrieved, reranked, cs, e, rfl, hid, rfl, hretnil, rfl,
              hrel, rfl, rfl, ?_⟩))))))))))
          simp [processQuery, processQueryWith, hplan, hamb, hid, hnrLit, hret, hie, hrr,
            hierel, has, hsum]
        · refine Or.inr (Or.inr (Or.inr (Or.inr (Or.inr (Or.inr (Or.inr (Or.inr (Or.inr
            (Or.inr (Or.inr (Or.inl ⟨p, retrieved, reranked, cs, summary, rfl, hid, rfl,
              hretnil, rfl, hrel, rfl, rfl, ?_⟩)))))))))))
          simp [processQuery, processQueryWith, hplan, hamb, hid, hnrLit, hret, hie, hrr,
            hierel, has, hsum, applyTrim, appendBoth]
      · refine Or.inr (Or.inr (Or.inr (Or.inr (Or.inr (Or.inr (Or.inr (Or.inr (Or.inr
          (Or.inl ⟨p, retrieved, reranked, cs, e, rfl, hid, rfl, hretnil, rfl, hrel, rfl,
            ?_⟩)))))))))
        simp [processQuery, processQueryWith, hplan, hamb, hid, hnrLit, hret, hie, hrr,
          hierel, has]
  · refine Or.inr (Or.inr (Or.inr (Or.inr (Or.inr (Or.inr (Or.inr (Or.inr (Or.inr
      (Or.inr (Or.inr (Or.inr ⟨p, rfl, hamb, hnr, hid, ?_⟩)))))))))))
    simp [processQuery, processQueryWith, hplan, hamb, hnr, hid]

/-! ### Helper lemmas about events and the trim -/

@[simp] theorem isError_answer_chunk (c : String) :
    (Event.answer_chunk c).isError = false := rfl

@[simp] theorem isError_final_data (l : List String) :
    (Event.final_data l).isError = false := rfl

@[simp] theorem isError_errorEvent (cfg : AgentConfig) (e : PyErr) :
    (errorEvent cfg e).isError = true := by
  cases e <;> rfl

@[simp] theorem turnErrored_chunkEvents (cs : List String) :
    turnErrored (chunkEvents cs) = false := by
  simp [turnErrored, chunkEvents, List.any_map, Function.comp]

@[simp] theorem turnErrored_charChunkEvents (s : String) :
    turnErrored (charChunkEvents s) = false := by
  simp [turnErrored, charChunkEvents, List.any_map, Function.comp]

@[simp] theorem turnErrored_append (l₁ l₂ : List Event) :
    turnErrored (l₁ ++ l₂) = (turnErrored l₁ || turnErrored l₂) := by
  simp [turnErrored]

@[simp] theorem turnErrored_cons (e : Event) (l : List Event) :
    turnErrored (e :: l) = (e.isError || turnErrored l) := by
  simp [turnErrored]

@[simp] theorem turnErrored_nil : turnErrored [] = false := rfl

theorem trimLog_length (w : ℕ) (l : List (String × String)) :
    (trimLog w l).length = if w < l.length then l.length - 1 else l.length := by
  unfold trimLog
  split <;> simp

theorem trimLog_suffix (w : ℕ) (l : List (String × String)) :
    trimLog w l <:+ l := by
  unfold trimLog
  split
  · exact List.tail_suffix l
  · exact List.suffix_refl l

theorem trimLog_length_le (w : ℕ) (l : List (String × String))
    (h : l.length ≤ w + 1) : (trimLog w l).length ≤ w := by
  rw [trimLog_length]
  split <;> omega

theorem trimLog_length_gt (w : ℕ) (l : List (String × String))
    (h : w + 1 < l.length) : w < (trimLog w l).length := by
  rw [trimLog_length]
  split <;> omega

theorem trimLog_length_congr (w : ℕ) {l₁ l₂ : List (String × String)}
    (h : l₁.length = l₂.length) : (trimLog w l₁).length = (trimLog w l₂).length := by
  rw [trimLog_length, trimLog_length, h]

/-! ### Claim C10 -/

/-- C10: on every completed turn the trim removes at most one entry, and it
removes it from the front (the trimmed log is a suffix of the log it trims);
consequently a log whose length exceeds `history_window` by more than one is
still above the window after the turn. -/
theorem C10_holds (cfg : AgentConfig) (o : TurnOracle) (q : String) (s : AgentState)
    (hok : turnErrored (processQuery cfg o q s).1 = false) :
    (∀ (w : ℕ) (l : List (String × String)),
        l.length - 1 ≤ (trimLog w l).length ∧ trimLog w l <:+ l) ∧
    (cfg.history_window + 1 < s.history.length →
        cfg.history_window < (processQuery cfg o q s).2.history.length) ∧
    (cfg.history_window + 1 < s.raw_history.length →
        cfg.history_window < (processQuery cfg o q s).2.raw_history.length) := by
  refine ⟨fun w l => ⟨by rw [trimLog_length]; split <;> omega, trimLog_suffix w l⟩, ?_, ?_⟩ <;>
  · rcases processQuery_branches cfg o q s with
      ⟨e, hp, heqn⟩ | ⟨p, hp, hc, heqn⟩ | ⟨p, cs, e, hp, hc, hs, heqn⟩ |
      ⟨p, cs, hp, hc, hs, heqn⟩ | ⟨p, e, hp, hc, hs, heqn⟩ | ⟨p, hp, hc, hs, heqn⟩ |
      ⟨p, rv, e, hp, hc, hs, hne, hrr, heqn⟩ |
      ⟨p, rv, rk, cs, e, hp, hc, hs, hne, hrr, hrel, hps, heqn⟩ |
      ⟨p, rv, rk, cs, hp, hc, hs, hne, hrr, hrel, hps, heqn⟩ |
      ⟨p, rv, rk, cs, e, hp, hc, hs, hne, hrr, hrel, has, heqn⟩ |
      ⟨p, rv, rk, cs, e, hp, hc, hs, hne, hrr, hrel, has, hsm, heqn⟩ |
      ⟨p, rv, rk, cs, sm, hp, hc, hs, hne, hrr, hrel, has, hsm, heqn⟩ |
      ⟨p, hp, hc, hnr, hid, heqn⟩ <;>
    rw [heqn] <;>
    intro hlen <;>
    simp only [appendBoth, applyTrim, List.length_append, List.length_cons,
      List.length_nil] at * <;>
    first
      | omega
      | (exact lt_of_lt_of_le (by omega)
          (le_of_eq (by rw [trimLog_length]; split <;> omega).symm))
      | (rw [trimLog_length]; split <;> simp_all <;> omega)
      | simp_all

/-- C10 witnessed at a concrete completed turn (window 0, one prior entry
in each log beyond the window by two). -/
theorem C10_witness :
    0 + 1 < ([("a", "b"), ("c", "d"), ("e", "f")] : List (String × String)).length ∧
    0 < (processQuery ⟨0, 2, "np", "fb"⟩
          ⟨.ok ⟨"CHITCHAT", none, none, none⟩, ⟨["hi"], none⟩, .ok [],
           fun _ => .ok [], ⟨[], none⟩, ⟨[], none⟩, .ok ""⟩ "q"
          ⟨[("a", "b"), ("c", "d"), ("e", "f")], [("a", "b"), ("c", "d"), ("e", "f")]⟩).2.history.length :=
  ⟨by decide,
   (C10_holds ⟨0, 2, "np", "fb"⟩
      ⟨.ok ⟨"CHITCHAT", none, none, none⟩, ⟨["hi"], none⟩, .ok [],
       fun _ => .ok [], ⟨[], none⟩, ⟨[], none⟩, .ok ""⟩ "q"
      ⟨[("a", "b"), ("c", "d"), ("e", "f")], [("a", "b"), ("c", "d"), ("e", "f")]⟩
      (by decide)).2.1 (by decide)⟩

/-! ### Claim C2 -/

/-- Claim C2 as stated: if the two logs have equal length within the window
before a turn, then after any successfully completed turn they again have
equal length within the window. -/
def claimC2Statement : Prop :=
  ∀ (cfg : AgentConfig) (o : TurnOracle) (q : String) (s : AgentState),
    s.history.length = s.raw_history.length →
    s.history.length ≤ cfg.history_window →
    turnErrored (processQuery cfg o q s).1 = false →
    (processQuery cfg o q s).2.history.length = (processQuery cfg o q s).2.raw_history.length ∧
    (processQuery cfg o q s).2.history.length ≤ cfg.history_window

/-- The turn refuting C2: a clarification turn with `history_window = 1`
and one entry already in each log.  The clarification branch returns before
the trim (`agent.py` line 143), so both logs end at length 2 > 1. -/
theorem C2_counterexample : ¬ claimC2Statement := by
  intro h
  have h2 := h ⟨1, 2, "np", "fb"⟩
    ⟨.ok ⟨"AMBIGUOUS", none, some "ok", none⟩, ⟨[], none⟩, .ok [],
     fun _ => .ok [], ⟨[], none⟩, ⟨[], none⟩, .ok ""⟩ "q"
    ⟨[("a", "b")], [("a", "b")]⟩ (by decide) (by decide) (by decide)
  exact absurd h2.2 (by decide)

/-- C2 (amended): after every successfully completed turn the two logs
still have equal length, and that length is at most `history_window + 1`;
the `≤ history_window` bound of the claim is enforced only by the trim,
which the clarification and pivot branches skip by returning early. -/
theorem C2_amended (cfg : AgentConfig) (o : TurnOracle) (q : String) (s : AgentState)
    (heq : s.history.length = s.raw_history.length)
    (hw : s.history.length ≤ cfg.history_window)
    (hok : turnErrored (processQuery cfg o q s).1 = false) :
    (processQuery cfg o q s).2.history.length = (processQuery cfg o q s).2.raw_history.length ∧
    (processQuery cfg o q s).2.history.length ≤ cfg.history_window + 1 := by
  rcases processQuery_branches cfg o q s with
      ⟨e, hp, heqn⟩ | ⟨p, hp, hc, heqn⟩ | ⟨p, cs, e, hp, hc, hs, heqn⟩ |
      ⟨p, cs, hp, hc, hs, heqn⟩ | ⟨p, e, hp, hc, hs, heqn⟩ | ⟨p, hp, hc, hs, heqn⟩ |
      ⟨p, rv, e, hp, hc, hs, hne, hrr, heqn⟩ |
      ⟨p, rv, rk, cs, e, hp, hc, hs, hne, hrr, hrel, hps, heqn⟩ |
      ⟨p, rv, rk, cs, hp, hc, hs, hne, hrr, hrel, hps, heqn⟩ |
      ⟨p, rv, rk, cs, e, hp, hc, hs, hne, hrr, hrel, has, heqn⟩ |
      ⟨p, rv, rk, cs, e, hp, hc, hs, hne, hrr, hrel, has, hsm, heqn⟩ |
      ⟨p, rv, rk, cs, sm, hp, hc, hs, hne, hrr, hrel, has, hsm, heqn⟩ |
      ⟨p, hp, hc, hnr, hid, heqn⟩ <;>
    rw [heqn] at hok ⊢ <;>
    simp only [turnErrored_append, turnErrored_chunkEvents, turnErrored_cons,
      turnErrored_nil, isError_errorEvent, isError_final_data, isError_answer_chunk,
      Bool.or_true, Bool.true_or, Bool.false_or, Bool.or_false,
      Bool.true_eq_false] at hok <;>
    simp only [appendBoth, applyTrim, List.length_append, List.length_cons,
      List.length_nil] <;>
    first
      | exact hok.elim
      | omega
      | (refine ⟨trimLog_length_congr cfg.history_window ?_,
            le_trans (trimLog_length_le _ _ ?_) (by omega)⟩ <;>
          (try simp only [List.length_append, List.length_cons, List.length_nil]) <;> omega)

/-- C2's amended bound witnessed on the concrete clarification turn of the
counterexample: lengths stay equal and reach `history_window + 1`. -/
theorem C2_witness :
    (processQuery ⟨1, 2, "np", "fb"⟩
        ⟨.ok ⟨"AMBIGUOUS", none, some "ok", none⟩, ⟨[], none⟩, .ok [],
         fun _ => .ok [], ⟨[], none⟩, ⟨[], none⟩, .ok ""⟩ "q"
        ⟨[("a", "b")], [("a", "b")]⟩).2.history.length =
      (processQuery ⟨1, 2, "np", "fb"⟩
        ⟨.ok ⟨"AMBIGUOUS", none, some "ok", none⟩, ⟨[], none⟩, .ok [],
         fun _ => .ok [], ⟨[], none⟩, ⟨[], none⟩, .ok ""⟩ "q"
        ⟨[("a", "b")], [("a", "b")]⟩).2.raw_history.length ∧
    (processQuery ⟨1, 2, "np", "fb"⟩
        ⟨.ok ⟨"AMBIGUOUS", none, some "ok", none⟩, ⟨[], none⟩, .ok [],
         fun _ => .ok [], ⟨[], none⟩, ⟨[], none⟩, .ok ""⟩ "q"
        ⟨[("a", "b")], [("a", "b")]⟩).2.history.length ≤ 1 + 1 :=
  C2_amended ⟨1, 2, "np", "fb"⟩
    ⟨.ok ⟨"AMBIGUOUS", none, some "ok", none⟩, ⟨[], none⟩, .ok [],
     fun _ => .ok [], ⟨[], none⟩, ⟨[], none⟩, .ok ""⟩ "q"
    ⟨[("a", "b")], [("a", "b")]⟩ (by decide) (by decide) (by decide)

/-! ### Claim C3 -/

/-- Claim C3 as stated: a turn that terminates with an `error` event leaves
both history logs exactly as they were at the start of the turn. -/
def claimC3Statement : Prop :=
  ∀ (cfg : AgentConfig) (o : TurnOracle) (q : String) (s : AgentState),
    turnErrored (processQuery cfg o q s).1 = true →
    (processQuery cfg o q s).2 = s

/-- The in-domain turn whose summarizer call fails with a transport error
(`agent.py` line 234): the turn is errored, yet the verbatim log was
already appended at line 229. -/
def c3Oracle : TurnOracle :=
  ⟨.ok ⟨"IN_DOMAIN_GOVT_SERVICE_INQUIRY", some "sq", none, none⟩, ⟨[], none⟩,
   .ok [⟨"1", "doc", []⟩],
   fun _ => .ok [⟨"1", .one, "why", "doc", []⟩],
   ⟨[], none⟩, ⟨["ans"], none⟩, .error .network⟩

/-- C3 refuted: on the summarizer-failure turn the post-state differs from
the pre-state (the verbatim log gained the answer). -/
theorem C3_counterexample : ¬ claimC3Statement := by
  intro h
  have h2 := h ⟨5, 2, "np", "fb"⟩ c3Oracle "q" ⟨[], []⟩ (by decide)
  exact absurd h2 (by decide)

/-- C3 (amended): on an errored turn the summarized log is never mutated,
and the verbatim log is unchanged too — except when the failure is the
summarizer call after the answer stream, in which case the verbatim log
has already gained `(user_query, stripped answer)`. -/
theorem C3_amended (cfg : AgentConfig) (o : TurnOracle) (q : String) (s : AgentState)
    (herr : turnErrored (processQuery cfg o q s).1 = true) :
    (processQuery cfg o q s).2.history = s.history ∧
    ((processQuery cfg o q s).2.raw_history = s.raw_history ∨
      ∃ e, o.summarize = .error e ∧
        (processQuery cfg o q s).2.raw_history =
          s.raw_history ++ [(q, pyStrip (String.join o.answerStream.chunks))]) := by
  rcases processQuery_branches cfg o q s with
      ⟨e, hp, heqn⟩ | ⟨p, hp, hc, heqn⟩ | ⟨p, cs, e, hp, hc, hs, heqn⟩ |
      ⟨p, cs, hp, hc, hs, heqn⟩ | ⟨p, e, hp, hc, hs, heqn⟩ | ⟨p, hp, hc, hs, heqn⟩ |
      ⟨p, rv, e, hp, hc, hs, hne, hrr, heqn⟩ |
      ⟨p, rv, rk, cs, e, hp, hc, hs, hne, hrr, hrel, hps, heqn⟩ |
      ⟨p, rv, rk, cs, hp, hc, hs, hne, hrr, hrel, hps, heqn⟩ |
      ⟨p, rv, rk, cs, e, hp, hc, hs, hne, hrr, hrel, has, heqn⟩ |
      ⟨p, rv, rk, cs, e, hp, hc, hs, hne, hrr, hrel, has, hsm, heqn⟩ |
      ⟨p, rv, rk, cs, sm, hp, hc, hs, hne, hrr, hrel, has, hsm, heqn⟩ |
      ⟨p, hp, hc, hnr, hid, heqn⟩ <;>
    rw [heqn] at herr ⊢ <;>
    simp only [turnErrored_append, turnErrored_chunkEvents, turnErrored_charChunkEvents,
      turnErrored_cons, turnErrored_nil, isError_errorEvent, isError_final_data,
      isError_answer_chunk, Bool.or_true, Bool.true_or, Bool.false_or, Bool.or_false,
      Bool.false_eq_true] at herr <;>
    first
      | exact herr.elim
      | exact ⟨rfl, Or.inl rfl⟩
      | exact ⟨rfl, Or.inr ⟨_, hsm, by rw [has]⟩⟩

/-- C3's amended guarantee witnessed on the concrete summarizer-failure
turn: summarized log untouched, verbatim log appended or untouched. -/
theorem C3_witness :
    (processQuery ⟨5, 2, "np", "fb"⟩ c3Oracle "q" ⟨[], []⟩).2.history = [] ∧
    ((processQuery ⟨5, 2, "np", "fb"⟩ c3Oracle "q" ⟨[], []⟩).2.raw_history = [] ∨
      ∃ e, c3Oracle.summarize = .error e ∧
        (processQuery ⟨5, 2, "np", "fb"⟩ c3Oracle "q" ⟨[], []⟩).2.raw_history =
          [] ++ [("q", pyStrip (String.join c3Oracle.answerStream.chunks))]) :=
  C3_amended ⟨5, 2, "np", "fb"⟩ c3Oracle "q" ⟨[], []⟩ (by decide)

/-! ### Claim C5 -/

theorem pySortedSet_sorted (l : List String) : (pySortedSet l).Sorted (· ≤ ·) :=
  List.sorted_insertionSort _ _

theorem pySortedSet_nodup (l : List String) : (pySortedSet l).Nodup :=
  (List.perm_insertionSort (α := String) (· ≤ ·) l.dedup).nodup_iff.mpr
    (List.nodup_dedup l)

theorem mem_pySortedSet {a : String} {l : List String} :
    a ∈ pySortedSet l ↔ a ∈ l := by
  rw [pySortedSet, (List.perm_insertionSort _ _).mem_iff, List.mem_dedup]

@[simp] theorem countFinalData_append (l₁ l₂ : List Event) :
    countFinalData (l₁ ++ l₂) = countFinalData l₁ + countFinalData l₂ := by
  simp [countFinalData]

@[simp] theorem countFinalData_chunkEvents (cs : List String) :
    countFinalData (chunkEvents cs) = 0 := by
  simp [countFinalData, chunkEvents, List.filter_map]

@[simp] theorem countFinalData_charChunkEvents (s : String) :
    countFinalData (charChunkEvents s) = 0 := by
  simp [countFinalData, charChunkEvents, List.filter_map]

theorem final_data_not_mem_chunkEvents {src : List String} {cs : List String} :
    Event.final_data src ∉ chunkEvents cs := by
  simp [chunkEvents]

theorem final_data_not_mem_charChunkEvents {src : List String} {s : String} :
    Event.final_data src ∉ charChunkEvents s := by
  simp [charChunkEvents]

/-- The conditions under which a turn reaches the synthesis branch and its
answer stream completes (success of the whole turn additionally needs the
summarizer, which the `turnErrored` hypothesis of C5 covers). -/
def synthesisBranch (cfg : AgentConfig) (o : TurnOracle) (s : AgentState) : Prop :=
  ∃ p retrieved reranked,
    o.plan = .ok p ∧ p.query_type = "IN_DOMAIN_GOVT_SERVICE_INQUIRY" ∧
    o.retrieve = .ok retrieved ∧ retrieved ≠ [] ∧
    o.rerankResult s.history = .ok reranked ∧ relevantOf cfg reranked ≠ [] ∧
    o.answerStream.failure = none

/-- C5: every successful turn emits at most one `final_data` event, exactly
one iff it is a synthesis turn; and any emitted `sources` list is the
sorted deduplicated urls of the kept passages followed by their sorted
deduplicated passage ids — each partition `Sorted (≤)` and `Nodup`, with
membership exactly the kept passages' urls resp. ids. -/
theorem C5_holds (cfg : AgentConfig) (o : TurnOracle) (q : String) (s : AgentState)
    (hok : turnErrored (processQuery cfg o q s).1 = false) :
    countFinalData (processQuery cfg o q s).1 ≤ 1 ∧
    (countFinalData (processQuery cfg o q s).1 = 1 ↔ synthesisBranch cfg o s) ∧
    ∀ src, Event.final_data src ∈ (processQuery cfg o q s).1 →
      ∃ reranked, o.rerankResult s.history = .ok reranked ∧
        src = pySortedSet (keptUrls (relevantOf cfg reranked)) ++
              pySortedSet ((relevantOf cfg reranked).map (·.passage_id)) ∧
        (pySortedSet (keptUrls (relevantOf cfg reranked))).Sorted (· ≤ ·) ∧
        (pySortedSet (keptUrls (relevantOf cfg reranked))).Nodup ∧
        (∀ u, u ∈ pySortedSet (keptUrls (relevantOf cfg reranked)) ↔
              u ∈ keptUrls (relevantOf cfg reranked)) ∧
        (pySortedSet ((relevantOf cfg reranked).map (·.passage_id))).Sorted (· ≤ ·) ∧
        (pySortedSet ((relevantOf cfg reranked).map (·.passage_id))).Nodup ∧
        (∀ i, i ∈ pySortedSet ((relevantOf cfg reranked).map (·.passage_id)) ↔
              i ∈ (relevantOf cfg reranked).map (·.passage_id)) := by
  have props : ∀ reranked : List RerankedPassage,
      (pySortedSet (keptUrls (relevantOf cfg reranked))).Sorted (· ≤ ·) ∧
      (pySortedSet (keptUrls (relevantOf cfg reranked))).Nodup ∧
      (∀ u, u ∈ pySortedSet (keptUrls (relevantOf cfg reranked)) ↔
            u ∈ keptUrls (relevantOf cfg reranked)) ∧
      (pySortedSet ((relevantOf cfg reranked).map (·.passage_id))).Sorted (· ≤ ·) ∧
      (pySortedSet ((relevantOf cfg reranked).map (·.passage_id))).Nodup ∧
      (∀ i, i ∈ pySortedSet ((relevantOf cfg reranked).map (·.passage_id)) ↔
            i ∈ (relevantOf cfg reranked).map (·.passage_id)) :=
    fun rk => ⟨pySortedSet_sorted _, pySortedSet_nodup _, fun _ => mem_pySortedSet,
      pySortedSet_sorted _, pySortedSet_nodup _, fun _ => mem_pySortedSet⟩
  rcases processQuery_branches cfg o q s with
      ⟨e, hp, heqn⟩ | ⟨p, hp, hc, heqn⟩ | ⟨p, cs, e, hp, hc, hs, heqn⟩ |
      ⟨p, cs, hp, hc, hs, heqn⟩ | ⟨p, e, hp, hc, hs, heqn⟩ | ⟨p, hp, hc, hs, heqn⟩ |
      ⟨p, rv, e, hp, hc, hs, hne, hrr, heqn⟩ |
      ⟨p, rv, rk, cs, e, hp, hc, hs, hne, hrr, hrel, hps, heqn⟩ |
      ⟨p, rv, rk, cs, hp, hc, hs, hne, hrr, hrel, hps, heqn⟩ |
      ⟨p, rv, rk, cs, e, hp, hc, hs, hne, hrr, hrel, has, heqn⟩ |
      ⟨p, rv, rk, cs, e, hp, hc, hs, hne, hrr, hrel, has, hsm, heqn⟩ |
      ⟨p, rv, rk, cs, sm, hp, hc, hs, hne, hrr, hrel, has, hsm, heqn⟩ |
      ⟨p, hp, hc, hnr, hid, heqn⟩
  -- planner failure: excluded by hok
  · rw [heqn] at hok; simp at hok
  -- clarification branch
  · rw [heqn]
    refine ⟨by simp, ?_, ?_⟩
    · simp only [countFinalData_charChunkEvents]
      constructor
      · intro h01; exact absurd h01 (by decide)
      · rintro ⟨p₂, rv₂, rk₂, hp₂, hq₂, -⟩
        rw [hp] at hp₂; injection hp₂ with hpe; subst hpe
        exact absurd (hc.1.symm.trans hq₂) (by decide)
    · intro src hmem; exact absurd hmem final_data_not_mem_charChunkEvents
  -- non-retrieval stream failure: excluded by hok
  · rw [heqn] at hok; simp at hok
  -- non-retrieval success
  · rw [heqn]
    refine ⟨by simp, ?_, ?_⟩
    · simp only [countFinalData_chunkEvents]
      constructor
      · intro h01; exact absurd h01 (by decide)
      · rintro ⟨p₂, rv₂, rk₂, hp₂, hq₂, -⟩
        rw [hp] at hp₂; injection hp₂ with hpe; subst hpe
        rw [hq₂] at hc
        exact absurd hc (by decide)
    · intro src hmem; exact absurd hmem final_data_not_mem_chunkEvents
  -- retrieval failure: excluded by hok
  · rw [heqn] at hok; simp at hok
  -- no passages retrieved
  · rw [heqn]
    refine ⟨by simp [countFinalData], ?_, ?_⟩
    · have h0 : countFinalData [Event.answer_chunk cfg.no_passages_found] = 0 := by
        simp [countFinalData]
      rw [h0]
      constructor
      · intro h01; exact absurd h01 (by decide)
      · rintro ⟨p₂, rv₂, rk₂, hp₂, hq₂, hs₂, hne₂, -⟩
        rw [hs] at hs₂; injection hs₂ with hse
        exact (hne₂ hse.symm).elim
    · intro src hmem
      rcases List.mem_singleton.mp hmem with h
      exact absurd h (by simp)
  -- reranker failure: excluded by hok
  · rw [heqn] at hok; simp at hok
  -- pivot stream failure: excluded by hok
  · rw [heqn] at hok; simp at hok
  -- pivot success
  · rw [heqn]
    refine ⟨by simp, ?_, ?_⟩
    · simp only [countFinalData_chunkEvents]
      constructor
      · intro h01; exact absurd h01 (by decide)
      · rintro ⟨p₂, rv₂, rk₂, hp₂, hq₂, hs₂, hne₂, hrr₂, hrel₂, -⟩
        rw [hrr] at hrr₂; injection hrr₂ with hre; subst hre
        exact (hrel₂ hrel).elim
    · intro src hmem; exact absurd hmem final_data_not_mem_chunkEvents
  -- answer stream failure: excluded by hok
  · rw [heqn] at hok; simp at hok
  -- summarizer failure: excluded by hok
  · rw [heqn] at hok; simp at hok
  -- synthesis success
  · rw [heqn]
    have h1 : countFinalData
        (chunkEvents cs ++ [Event.final_data (finalSources (relevantOf cfg rk))]) = 1 := by
      simp only [countFinalData_append, countFinalData_chunkEvents]
      rfl
    refine ⟨le_of_eq h1, ?_, ?_⟩
    · rw [h1]
      exact ⟨fun _ => ⟨p, rv, rk, hp, hc, hs, hne, hrr, hrel, by rw [has]⟩, fun _ => rfl⟩
    · intro src hmem
      rcases List.mem_append.mp hmem with h | h
      · exact absurd h final_data_not_mem_chunkEvents
      · rcases List.mem_singleton.mp h with h
        injection h with hsrc
        exact ⟨rk, hrr, by rw [hsrc, finalSources], props rk⟩
  -- silent fall-through
  · rw [heqn]
    refine ⟨by simp [countFinalData], ?_, ?_⟩
    · have h0 : countFinalData ([] : List Event) = 0 := rfl
      rw [h0]
      constructor
      · intro h01; exact absurd h01 (by decide)
      · rintro ⟨p₂, rv₂, rk₂, hp₂, hq₂, -⟩
        rw [hp] at hp₂; injection hp₂ with hpe; subst hpe
        exact (hid hq₂).elim
    · intro src hmem; exact absurd hmem (List.not_mem_nil _)

/-- A concrete successful synthesis turn (one retrieved passage scored 1,
one url) used to witness C5. -/
def c5Oracle : TurnOracle :=
  ⟨.ok ⟨"IN_DOMAIN_GOVT_SERVICE_INQUIRY", some "sq", none, none⟩, ⟨[], none⟩,
   .ok [⟨"1", "doc", [("url", "u1"), ("passage_id", "1")]⟩],
   fun _ => .ok [⟨"1", .one, "why", "doc", [("url", "u1"), ("passage_id", "1")]⟩],
   ⟨[], none⟩, ⟨["ans"], none⟩, .ok "sum"⟩

/-- C5 witnessed: the concrete synthesis turn emits exactly one
`final_data` event. -/
theorem C5_witness :
    countFinalData (processQuery ⟨5, 2, "np", "fb"⟩ c5Oracle "q" ⟨[], []⟩).1 = 1 :=
  (C5_holds ⟨5, 2, "np", "fb"⟩ c5Oracle "q" ⟨[], []⟩ (by decide)).2.1.mpr
    ⟨⟨"IN_DOMAIN_GOVT_SERVICE_INQUIRY", some "sq", none, none⟩,
     [⟨"1", "doc", [("url", "u1"), ("passage_id", "1")]⟩],
     [⟨"1", .one, "why", "doc", [("url", "u1"), ("passage_id", "1")]⟩],
     rfl, rfl, rfl, by decide, rfl, by decide, rfl⟩

/-! ### Claim C6 -/

@[simp] theorem filterMap_chunkContent_chunkEvents (cs : List String) :
    (chunkEvents cs).filterMap chunkContent = cs := by
  induction cs with
  | nil => rfl
  | cons c t ih => simp [chunkEvents, chunkContent] at ih ⊢; exact ih

@[simp] theorem filterMap_chunkContent_charChunkEvents (t : String) :
    (charChunkEvents t).filterMap chunkContent = t.data.map (fun c => String.mk [c]) := by
  unfold charChunkEvents
  induction t.data with
  | nil => rfl
  | cons c l ih => simp [chunkContent] at ih ⊢; exact ih

theorem foldl_append_singletons (l acc : List Char) :
    (l.map (fun c => String.mk [c])).foldl (· ++ ·) (String.mk acc) =
      String.mk (acc ++ l) := by
  induction l generalizing acc with
  | nil => simp
  | cons c t ih =>
    simp only [List.map_cons, List.foldl_cons]
    have h : String.mk acc ++ String.mk [c] = String.mk (acc ++ [c]) := rfl
    rw [h, ih]
    simp

theorem join_singleton_chars (l : List Char) :
    String.join (l.map (fun c => String.mk [c])) = String.mk l := by
  have h := foldl_append_singletons l []
  simpa [String.join] using h

theorem answerConcat_chunkEvents (cs : List String) :
    answerConcat (chunkEvents cs) = String.join cs := by
  rw [answerConcat, filterMap_chunkContent_chunkEvents]

theorem answerConcat_charChunkEvents (t : String) :
    answerConcat (charChunkEvents t) = t := by
  rw [answerConcat, filterMap_chunkContent_charChunkEvents, join_singleton_chars]

theorem answerConcat_chunkEvents_final (cs : List String) (S : List String) :
    answerConcat (chunkEvents cs ++ [Event.final_data S]) = String.join cs := by
  rw [answerConcat, List.filterMap_append, filterMap_chunkContent_chunkEvents]
  simp [chunkContent]

/-- Claim C6 as stated: after every successful turn some reply was appended
to the verbatim log (possibly followed by the trim) and that reply equals
the concatenation of the turn's `answer_chunk` contents. -/
def claimC6Statement : Prop :=
  ∀ (cfg : AgentConfig) (o : TurnOracle) (q : String) (s : AgentState),
    turnErrored (processQuery cfg o q s).1 = false →
    ∃ reply,
      ((processQuery cfg o q s).2.raw_history = s.raw_history ++ [(q, reply)] ∨
       (processQuery cfg o q s).2.raw_history =
         trimLog cfg.history_window (s.raw_history ++ [(q, reply)])) ∧
      answerConcat (processQuery cfg o q s).1 = reply

/-- A successful synthesis turn whose answer stream ends in a blank:
`"".join(...).strip()` stores `"Hi"` while the chunks concatenate to
`"Hi "`. -/
def c6Oracle : TurnOracle :=
  ⟨.ok ⟨"IN_DOMAIN_GOVT_SERVICE_INQUIRY", some "sq", none, none⟩, ⟨[], none⟩,
   .ok [⟨"1", "doc", []⟩],
   fun _ => .ok [⟨"1", .one, "why", "doc", []⟩],
   ⟨[], none⟩, ⟨["Hi "], none⟩, .ok "sum"⟩

/-- C6 refuted: on the synthesis branch the stored verbatim reply is the
*stripped* concatenation, so a trailing blank in the stream falsifies the
stated equality. -/
theorem C6_counterexample : ¬ claimC6Statement := by
  intro h
  obtain ⟨reply, hloc, hconcat⟩ := h ⟨5, 2, "np", "fb"⟩ c6Oracle "q" ⟨[], []⟩ (by decide)
  have hr : (processQuery ⟨5, 2, "np", "fb"⟩ c6Oracle "q" ⟨[], []⟩).2.raw_history =
      [("q", "Hi")] := by decide
  have hc : answerConcat (processQuery ⟨5, 2, "np", "fb"⟩ c6Oracle "q" ⟨[], []⟩).1 =
      "Hi " := by decide
  rw [hr] at hloc
  have hrep : reply = "Hi" := by
    rcases hloc with h1 | h1
    · simpa using h1.symm
    · simp [trimLog] at h1
      exact h1.symm
  rw [hc, hrep] at hconcat
  exact absurd hconcat (by decide)

/-- C6 (amended): after every successful turn the verbatim log gains either
nothing (the no-passages and fall-through branches), or the pair
`(user_query, concatenation of the answer chunks)` (clarification,
non-retrieval and pivot branches), or the pair with the whitespace-stripped
concatenation (the synthesis branch) — in each case possibly followed by
the front trim. -/
theorem C6_amended (cfg : AgentConfig) (o : TurnOracle) (q : String) (s : AgentState)
    (hok : turnErrored (processQuery cfg o q s).1 = false) :
    ∃ appended : List (String × String),
      ((processQuery cfg o q s).2.raw_history = s.raw_history ++ appended ∨
       (processQuery cfg o q s).2.raw_history =
         trimLog cfg.history_window (s.raw_history ++ appended)) ∧
      (appended = [] ∨
       appended = [(q, answerConcat (processQuery cfg o q s).1)] ∨
       appended = [(q, pyStrip (answerConcat (processQuery cfg o q s).1))]) := by
  rcases processQuery_branches cfg o q s with
      ⟨e, hp, heqn⟩ | ⟨p, hp, hc, heqn⟩ | ⟨p, cs, e, hp, hc, hs, heqn⟩ |
      ⟨p, cs, hp, hc, hs, heqn⟩ | ⟨p, e, hp, hc, hs, heqn⟩ | ⟨p, hp, hc, hs, heqn⟩ |
      ⟨p, rv, e, hp, hc, hs, hne, hrr, heqn⟩ |
      ⟨p, rv, rk, cs, e, hp, hc, hs, hne, hrr, hrel, hps, heqn⟩ |
      ⟨p, rv, rk, cs, hp, hc, hs, hne, hrr, hrel, hps, heqn⟩ |
      ⟨p, rv, rk, cs, e, hp, hc, hs, hne, hrr, hrel, has, heqn⟩ |
      ⟨p, rv, rk, cs, e, hp, hc, hs, hne, hrr, hrel, has, hsm, heqn⟩ |
      ⟨p, rv, rk, cs, sm, hp, hc, hs, hne, hrr, hrel, has, hsm, heqn⟩ |
      ⟨p, hp, hc, hnr, hid, heqn⟩
  · rw [heqn] at hok; simp at hok
  · rw [heqn]
    exact ⟨[(q, p.clarification.getD "")], Or.inl rfl,
      Or.inr (Or.inl (by simp [answerConcat_charChunkEvents]))⟩
  · rw [heqn] at hok; simp at hok
  · rw [heqn]
    exact ⟨[(q, String.join cs)], Or.inr rfl,
      Or.inr (Or.inl (by simp [answerConcat_chunkEvents]))⟩
  · rw [heqn] at hok; simp at hok
  · rw [heqn]
    exact ⟨[], Or.inl (by simp), Or.inl rfl⟩
  · rw [heqn] at hok; simp at hok
  · rw [heqn] at hok; simp at hok
  · rw [heqn]
    exact ⟨[(q, String.join cs)], Or.inl rfl,
      Or.inr (Or.inl (by simp [answerConcat_chunkEvents]))⟩
  · rw [heqn] at hok; simp at hok
  · rw [heqn] at hok; simp at hok
  · rw [heqn]
    exact ⟨[(q, pyStrip (String.join cs))], Or.inr rfl,
      Or.inr (Or.inr (by simp [answerConcat_chunkEvents_final]))⟩
  · rw [heqn]
    exact ⟨[], Or.inr (by simp [applyTrim]), Or.inl rfl⟩

/-- C6's amended guarantee witnessed on the concrete synthesis turn of the
counterexample. -/
theorem C6_witness :
    ∃ appended : List (String × String),
      ((processQuery ⟨5, 2, "np", "fb"⟩ c6Oracle "q" ⟨[], []⟩).2.raw_history =
          ([] : List (String × String)) ++ appended ∨
       (processQuery ⟨5, 2, "np", "fb"⟩ c6Oracle "q" ⟨[], []⟩).2.raw_history =
         trimLog 5 (([] : List (String × String)) ++ appended)) ∧
      (appended = [] ∨
       appended = [("q", answerConcat (processQuery ⟨5, 2, "np", "fb"⟩ c6Oracle "q" ⟨[], []⟩).1)] ∨
       appended = [("q", pyStrip (answerConcat (processQuery ⟨5, 2, "np", "fb"⟩ c6Oracle "q" ⟨[], []⟩).1))]) :=
  C6_amended ⟨5, 2, "np", "fb"⟩ c6Oracle "q" ⟨[], []⟩ (by decide)

/-! ### Claim C7 -/

/-- Claim C7 as stated: the turn behaves as if the reranker were invoked
with the verbatim history log. -/
def claimC7Statement : Prop :=
  ∀ (cfg : AgentConfig) (o : TurnOracle) (q : String) (s : AgentState),
    processQuery cfg o q s = processQueryVerbatimRerank cfg o q s

/-- An oracle whose reranker outcome depends on which log it receives:
relevant passages are returned only for the verbatim log
`[("a", "full")]`. -/
def c7Oracle : TurnOracle :=
  ⟨.ok ⟨"IN_DOMAIN_GOVT_SERVICE_INQUIRY", some "sq", none, none⟩, ⟨[], none⟩,
   .ok [⟨"1", "doc", []⟩],
   fun h => if h = [("a", "full")] then .ok [⟨"1", .one, "why", "doc", []⟩] else .ok [],
   ⟨["pv"], none⟩, ⟨["ans"], none⟩, .ok "sum"⟩

/-- C7 refuted: with distinct logs the source turn (reranker fed
`self.history`, the summarized log) pivots, while the claim's turn
(reranker fed the verbatim log) synthesizes — the outputs differ. -/
theorem C7_counterexample : ¬ claimC7Statement := by
  intro h
  exact absurd (h ⟨5, 2, "np", "fb"⟩ c7Oracle "q" ⟨[("a", "sum")], [("a", "full")]⟩)
    (by decide)

/-- C7 (amended): the reranker is invoked with the summarized log — the
turn's outcome depends on the reranker oracle only through its value at
`s.history`, never through its value at the verbatim log. -/
theorem C7_amended (cfg : AgentConfig) (o : TurnOracle)
    (g : List (String × String) → Except PyErr (List RerankedPassage))
    (q : String) (s : AgentState)
    (h : g s.history = o.rerankResult s.history) :
    processQuery cfg { o with rerankResult := g } q s = processQuery cfg o q s := by
  simp only [processQuery, processQueryWith, h]

/-- C7's amended guarantee witnessed: replacing the reranker function by
one that agrees on the summarized log leaves the concrete turn unchanged. -/
theorem C7_witness :
    processQuery ⟨5, 2, "np", "fb"⟩
        { c7Oracle with rerankResult := fun _ => .ok [] } "q"
        ⟨[("a", "sum")], [("a", "full")]⟩ =
      processQuery ⟨5, 2, "np", "fb"⟩ c7Oracle "q" ⟨[("a", "sum")], [("a", "full")]⟩ :=
  C7_amended ⟨5, 2, "np", "fb"⟩ c7Oracle (fun _ => .ok []) "q"
    ⟨[("a", "sum")], [("a", "full")]⟩ (by rfl)

/-! ### Claim C4 -/

theorem rerank_all_overflow (key : String)
    (judge : StoredPassage → Except LLMError SinglePassageScore) :
    ∀ passages : List StoredPassage,
      (∀ p ∈ passages, judge p = .error .contextOverflow) →
      (rerank key judge passages).length = passages.length ∧
      ∀ r ∈ rerank key judge passages, r.score = .three := by
  intro passages hov
  induction passages with
  | nil => simp [rerank]
  | cons p t ih =>
    have hp := hov p (List.mem_cons_self p t)
    obtain ⟨ihl, ihs⟩ := ih (fun x hx => hov x (List.mem_cons_of_mem p hx))
    constructor
    · simp only [rerank, List.filterMap_cons, score_one_passage, hp, List.length_cons]
      simpa [rerank] using ihl
    · intro r hr
      simp only [rerank, List.filterMap_cons, score_one_passage, hp] at hr
      rcases List.mem_cons.mp hr with h | h
      · rw [h]
      · exact ihs r (by simpa [rerank] using h)

/-- C4: for any non-empty batch, (a) if every judge call overflows context
the output keeps every passage with `score = 3`; (b) if every judge call
fails with a transport error the output is empty; (c) a passage whose own
call produces a record is never dropped because of a sibling's failure. -/
theorem C4_holds (key : String)
    (judge : StoredPassage → Except LLMError SinglePassageScore)
    (passages : List StoredPassage) (hne : passages ≠ []) :
    ((∀ p ∈ passages, judge p = .error .contextOverflow) →
        (rerank key judge passages).length = passages.length ∧
        ∀ r ∈ rerank key judge passages, r.score = .three) ∧
    ((∀ p ∈ passages, judge p = .error .transport) →
        rerank key judge passages = []) ∧
    (∀ p ∈ passages, ∀ r, score_one_passage key judge p = some r →
        r ∈ rerank key judge passages) := by
  refine ⟨rerank_all_overflow key judge passages, ?_, ?_⟩
  · intro htr
    rw [rerank, List.filterMap_eq_nil_iff]
    intro p hp
    simp [score_one_passage, htr p hp]
  · intro p hp r hr
    exact List.mem_filterMap.mpr ⟨p, hp, hr⟩

/-- C4 witnessed: a one-passage batch whose judge call overflows keeps its
single entry at `score = 3`. -/
theorem C4_witness :
    (rerank "passage_id" (fun _ => .error .contextOverflow)
        [⟨"1", "doc", []⟩]).length = 1 ∧
    ∀ r ∈ rerank "passage_id" (fun _ => .error .contextOverflow)
        [⟨"1", "doc", []⟩], r.score = .three :=
  (C4_holds "passage_id" (fun _ => .error .contextOverflow)
    [⟨"1", "doc", []⟩] (by simp)).1 (fun _ _ => rfl)

/-! ### Claim C8 -/

/-- C8: `invoke_structured` fails with the dedicated `context_overflow`
error — a kind distinct from the generic `upstream` error — whenever the
prompt exceeds the model's declared context, and a reranker judging
through it turns such a passage into a `score = 3` record rather than
dropping it. -/
theorem C8_holds (svc : AsyncLLMService) (buildPrompt : StoredPassage → String)
    (key : String) (p : StoredPassage)
    (h : svc.max_context_tokens < svc.promptTokens (buildPrompt p)) :
    invoke_structured svc (buildPrompt p) = .error .contextOverflow ∧
    LLMError.contextOverflow ≠ LLMError.upstream ∧
    ∃ r, score_one_passage key (fun x => invoke_structured svc (buildPrompt x)) p = some r ∧
      r.score = .three := by
  have h1 : invoke_structured svc (buildPrompt p) = .error .contextOverflow := by
    simp [invoke_structured, h]
  refine ⟨h1, by decide, ?_⟩
  refine ⟨{ passage_id := correctPassageId key p, score := .three,
            reasoning := "The passage content was too long to fit into the model's context window for evaluation.",
            document := p.document, metadata := p.metadata }, ?_, rfl⟩
  simp [score_one_passage, h1]

/-- C8 witnessed: a five-token prompt against a three-token context yields
the dedicated overflow error. -/
theorem C8_witness :
    invoke_structured ⟨3, String.length, fun _ => .error .upstream⟩ "abcde" =
      .error .contextOverflow :=
  (C8_holds ⟨3, String.length, fun _ => .error .upstream⟩ (fun x => x.document)
    "passage_id" ⟨"1", "abcde", []⟩ (by decide)).1

/-! ### Claim C1 -/

/-- C1 refuted: two shards returning four distinct ids with
`max_results = 3` (and the default `k_rrf = 60`).  The source function has
no cap at all — it materializes all four ids — so its output cannot be the
top-3 RRF selection the claim describes, whatever the fused order is. -/
theorem C1_counterexample :
    ¬ claimC1Statement 60 3
      [[[("passage_id", "a")], [("passage_id", "b")]],
       [[("passage_id", "c")], [("passage_id", "d")]]]
      [⟨"a", "da", []⟩, ⟨"b", "db", []⟩, ⟨"c", "dc", []⟩, ⟨"d", "dd", []⟩] := by
  rintro ⟨sortedIds, hperm, hpw, heq⟩
  have hl := congrArg List.length heq
  rw [List.length_map, List.length_take] at hl
  have hp := hperm.length_eq
  have h1 : (get_unique_passages_from_all_collections
      [[[("passage_id", "a")], [("passage_id", "b")]],
       [[("passage_id", "c")], [("passage_id", "d")]]]
      [⟨"a", "da", []⟩, ⟨"b", "db", []⟩, ⟨"c", "dc", []⟩, ⟨"d", "dd", []⟩]).length = 4 := by
    decide
  have h2 : (([[[("passage_id", "a")], [("passage_id", "b")]],
       [[("passage_id", "c")], [("passage_id", "d")]]].map
        extractPassageIds).flatten.dedup).length = 4 := by
    decide
  rw [h1, hp, h2] at hl
  exact absurd hl (by decide)

/-- C1 (amended): `get_unique_passages_from_all_collections` returns
exactly the passage-collection records whose id was returned by at least
one shard — deduplicated by the set union — in the *store's* order (a
sublist of the store), with no RRF scoring, no `max_results` cap and no
fused-rank ordering (the RRF pipeline of the spec lives in
`src/evaluation/retriver.py`, not in this function). -/
theorem C1_amended (shardMetas : List ShardMetas) (store : List StoredPassage) :
    (get_unique_passages_from_all_collections shardMetas store).Sublist store ∧
    ∀ p, p ∈ get_unique_passages_from_all_collections shardMetas store ↔
      p ∈ store ∧ p.id ∈ (shardMetas.map extractPassageIds).flatten := by
  unfold get_unique_passages_from_all_collections storeGet
  simp only []
  split
  · next hempty =>
    refine ⟨List.nil_sublist store, fun p => ?_⟩
    rw [List.isEmpty_iff] at hempty
    have : p.id ∉ (shardMetas.map extractPassageIds).flatten := by
      rw [← List.mem_dedup, hempty]
      exact List.not_mem_nil _
    simp [this]
  · refine ⟨List.filter_sublist store, fun p => ?_⟩
    rw [List.mem_filter]
    constructor
    · rintro ⟨hst, hct⟩
      refine ⟨hst, ?_⟩
      rw [← List.mem_dedup]
      exact List.mem_of_elem_eq_true hct
    · rintro ⟨hst, hmem⟩
      refine ⟨hst, ?_⟩
      exact List.elem_eq_true_of_mem (List.mem_dedup.mpr hmem)

/-! ### Claim C9 -/

theorem keptHistory_suffix (tm : TokenManager) (b : ℤ) :
    ∀ (h : List (String × String)) (kept : List (String × String)),
      keptHistory tm b h = some kept → kept <:+ h := by
  intro h
  induction h with
  | nil => intro kept hk; exact absurd hk (by simp [keptHistory])
  | cons t rest ih =>
    intro kept hk
    rw [keptHistory] at hk
    split at hk
    · cases hk; exact List.suffix_refl _
    · exact (ih kept hk).trans (List.suffix_cons t rest)

theorem keptHistory_mono (tm : TokenManager) {b₁ b₂ : ℤ} (hb : b₁ ≤ b₂) :
    ∀ h : List (String × String),
      (keptHistory tm b₁ h).getD [] <:+ (keptHistory tm b₂ h).getD [] := by
  intro h
  induction h with
  | nil => simp [keptHistory]
  | cons t rest ih =>
    by_cases hfit : (tm.count_tokens (formatHistory (t :: rest)) : ℤ) ≤ b₂
    · rw [show keptHistory tm b₂ (t :: rest) = some (t :: rest) from by
        rw [keptHistory]; exact if_pos hfit]
      cases hk : keptHistory tm b₁ (t :: rest) with
      | none => exact List.nil_suffix
      | some kept => simpa using keptHistory_suffix tm b₁ (t :: rest) kept hk
    · have hfit1 : ¬ (tm.count_tokens (formatHistory (t :: rest)) : ℤ) ≤ b₁ :=
        fun hc => hfit (le_trans hc hb)
      rw [show keptHistory tm b₂ (t :: rest) = keptHistory tm b₂ rest from by
          rw [keptHistory]; exact if_neg hfit,
        show keptHistory tm b₁ (t :: rest) = keptHistory tm b₁ rest from by
          rw [keptHistory]; exact if_neg hfit1]
      exact ih

theorem keptPassagesAux_self_prefix (fits : List StoredPassage → Bool) :
    ∀ (n : ℕ) (ps : List StoredPassage), keptPassagesAux fits n ps <+: ps := by
  intro n
  induction n with
  | zero => intro ps; exact List.nil_prefix
  | succ n ih =>
    intro ps
    rw [keptPassagesAux]
    split
    · exact List.prefix_refl _
    · refine (ih ps.dropLast).trans ?_
      rw [List.dropLast_eq_take]
      exact List.take_prefix _ _

theorem keptPassagesAux_mono (tm : TokenManager) {b₁ b₂ : ℤ} (hb : b₁ ≤ b₂) :
    ∀ (n : ℕ) (ps : List StoredPassage),
      keptPassagesAux (fun l => decide ((tm.count_tokens (formatPassages l) : ℤ) ≤ b₁)) n ps <+:
      keptPassagesAux (fun l => decide ((tm.count_tokens (formatPassages l) : ℤ) ≤ b₂)) n ps := by
  intro n
  induction n with
  | zero => intro ps; exact List.prefix_refl _
  | succ n ih =>
    intro ps
    by_cases hfit : (tm.count_tokens (formatPassages ps) : ℤ) ≤ b₂
    · rw [show keptPassagesAux (fun l => decide ((tm.count_tokens (formatPassages l) : ℤ) ≤ b₂))
          (n + 1) ps = ps from by rw [keptPassagesAux]; simp [hfit]]
      exact keptPassagesAux_self_prefix _ _ ps
    · have hfit1 : ¬ (tm.count_tokens (formatPassages ps) : ℤ) ≤ b₁ :=
        fun hc => hfit (le_trans hc hb)
      rw [show keptPassagesAux (fun l => decide ((tm.count_tokens (formatPassages l) : ℤ) ≤ b₂))
          (n + 1) ps = keptPassagesAux
            (fun l => decide ((tm.count_tokens (formatPassages l) : ℤ) ≤ b₂)) n ps.dropLast from by
            rw [keptPassagesAux]; simp [hfit],
        show keptPassagesAux (fun l => decide ((tm.count_tokens (formatPassages l) : ℤ) ≤ b₁))
          (n + 1) ps = keptPassagesAux
            (fun l => decide ((tm.count_tokens (formatPassages l) : ℤ) ≤ b₁)) n ps.dropLast from by
            rw [keptPassagesAux]; simp [hfit1]]
      exact ih ps.dropLast

theorem keptPassages_mono (tm : TokenManager) {b₁ b₂ : ℤ} (hb : b₁ ≤ b₂)
    (ps : List StoredPassage) :
    keptPassages tm b₁ ps <+: keptPassages tm b₂ ps :=
  keptPassagesAux_mono tm hb ps.length ps

theorem historyBudgetTokens_mono (tm : TokenManager) {r₁ r₂ : ℕ} (h : r₁ ≤ r₂) :
    historyBudgetTokens tm r₁ ≤ historyBudgetTokens tm r₂ :=
  Nat.div_le_div_right (Nat.mul_le_mul_right _ h)

theorem remainingAfterFixed_mono (tm : TokenManager) (pi : PromptInputs)
    {c₁ c₂ : ℤ} (h : c₁ ≤ c₂) :
    remainingAfterFixed tm c₁ pi ≤ remainingAfterFixed tm c₂ pi := by
  unfold remainingAfterFixed availableTokens
  exact Int.toNat_le_toNat (by omega)

/-- The concrete token manager of the C9 counterexample: one token per
character (`encode` maps each character to its code). -/
def cxTM : TokenManager :=
  { encode := fun s => s.data.map Char.toNat,
    decode := fun l => String.mk (l.map Char.ofNat),
    reservation_tokens := 0, historyBudgetNum := 1, historyBudgetDen := 2 }

/-- One history turn whose formatted form is exactly 98 tokens. -/
def cxHist : List (String × String) :=
  [("uuuuuuuuu", "aaaaaaaaaaaaaaaaaaaaaaaaaaaaaaaaaaaaaaaaaaaaaaaaaaaaaaaaaaaaaaaaaaaaaaaaaaaaaa")]

/-- One passage whose formatted form is exactly 148 tokens. -/
def cxPassage : StoredPassage :=
  ⟨"p1",
   "bbbbbbbbbbbbbbbbbbbbbbbbbbbbbbbbbbbbbbbbbbbbbbbbbbbbbbbbbbbbbbbbbbbbbbbbbbbbbbbbbbbbbbbbbbbbbbbbbbbbbbbbbbbbbbbbbbbbbbbbbbbb",
   [("passage_id", "p1")]⟩

/-- The C9 slot assignment: no fixed slots, the single history turn, the
single passage. -/
def cxPI : PromptInputs := ⟨[], some cxHist, some [cxPassage]⟩

set_option maxRecDepth 8192 in
/-- C9 refuted: raising the ceiling from 195 to 196 lets the single
98-token history turn replace the 35-token placeholder, shrinking the
passage budget from 160 to 98 and dropping the 148-token passage that the
lower ceiling had kept. -/
theorem C9_counterexample : ¬ claimC9Statement := by
  intro h
  have h2 := (h cxTM cxPI 195 196 (by decide)).2
  have e1 : includedPassages cxTM 195 cxPI = [cxPassage] := by decide
  have e2 : includedPassages cxTM 196 cxPI = [] := by decide
  rw [e1, e2] at h2
  exact List.cons_ne_nil _ _ (List.prefix_nil.mp h2)

/-- C9 (amended): the history component is monotone in the ceiling — the
turns included at the lower ceiling are a suffix of those included at the
higher one — and the passages component is monotone whenever the history
component is unchanged between the two ceilings (raising the ceiling can
otherwise grow the history string and shrink the passage budget, as the
counterexample shows). -/
theorem C9_amended (tm : TokenManager) (pi : PromptInputs) (c₁ c₂ : ℤ) (h : c₁ ≤ c₂) :
    includedTurns tm c₁ pi <:+ includedTurns tm c₂ pi ∧
    (historyStr tm c₁ pi = historyStr tm c₂ pi →
      includedPassages tm c₁ pi <+: includedPassages tm c₂ pi) := by
  constructor
  · unfold includedTurns
    cases hh : pi.history with
    | none => exact List.suffix_refl _
    | some hist =>
      have hb : (historyBudgetTokens tm (remainingAfterFixed tm c₁ pi) : ℤ) ≤
          (historyBudgetTokens tm (remainingAfterFixed tm c₂ pi) : ℤ) := by
        exact_mod_cast historyBudgetTokens_mono tm (remainingAfterFixed_mono tm pi h)
      exact keptHistory_mono tm hb hist
  · intro hstr
    unfold includedPassages
    cases hp : pi.passages with
    | none => exact List.prefix_refl _
    | some ps =>
      have hb : passageBudget tm c₁ pi ≤ passageBudget tm c₂ pi := by
        unfold passageBudget availableTokens
        cases hh : pi.history with
        | none => dsimp only; omega
        | some hist => dsimp only; rw [hstr]; omega
      exact keptPassages_mono tm hb ps

set_option maxRecDepth 8192 in
/-- C9's amended guarantee witnessed at the counterexample's ceilings: the
turns included at ceiling 195 (none) are a suffix of those included at
ceiling 196 (the full turn). -/
theorem C9_witness : includedTurns cxTM 195 cxPI <:+ includedTurns cxTM 196 cxPI :=
  (C9_amended cxTM cxPI 195 196 (by decide)).1



end CogOps
